import Mathlib

/-!
Verification of the ACSI bus-protocol engine (`Acsi.cpp`).

The development shallowly embeds the engine:

* Port reads (`GPIOA->regs->IDR`, `GPIOB->regs->IDR`) are modelled as `Nat`
  values; a C `uint16_t` truncation is written `% 65536`, a `uint8_t` cast
  `% 256`.
* Busy-polling loops (`waitCommand`) are modelled as recursion over the finite
  list of successive port snapshots the loop would read; a loop that never
  sees a matching snapshot yields `none`.
* The stateful operations (`sendIrq`, `readIrq`, `readDma`, `sendDma`) are
  modelled by the finite trace of hardware events they perform, in program
  order; register state (`CRH`, `ODR`, `CNT`) is recovered by folding the
  event trace over a register record.
* The values a DMA transfer captures or drives are supplied by an environment
  function `Nat → Nat` giving, for each byte index, the 16-bit port sample
  (resp. the buffer byte).
-/

namespace Acsi

/-- Pin mask for the A1 line (PB6), `A1_MASK` in the source. -/
def A1_MASK : Nat := 0x40

/-- Pin mask for the CS line (PB7), `CS_MASK` in the source. -/
def CS_MASK : Nat := 0x80

/-- Pin mask for the IRQ line (PA8), `IRQ_MASK` in the source. -/
def IRQ_MASK : Nat := 0x100

/-- Pin mask for the DRQ line (PA11), `DRQ_MASK` in the source. -/
def DRQ_MASK : Nat := 0x800

/-- Pin mask for the ACK line (PA12), `ACK_MASK` in the source. -/
def ACK_MASK : Nat := 0x1000

/-- `Acsi::idle`, translated with C's operator precedence kept intact:
`(IDR & (IRQ_MASK | DRQ_MASK | ACK_MASK)) == IRQ_MASK | DRQ_MASK | ACK_MASK`
parses in C as `((IDR & m) == IRQ_MASK) | DRQ_MASK | ACK_MASK`: the equality
yields an `int` 0 or 1, the two masks are then bitwise-ored onto it, and the
result is converted to `bool` (nonzero test). -/
def idle (idr : Nat) : Bool :=
  ((if idr &&& (IRQ_MASK ||| DRQ_MASK ||| ACK_MASK) = IRQ_MASK then 1 else 0)
      ||| DRQ_MASK ||| ACK_MASK) != 0

/-- The reading of `Acsi::idle` that the surrounding code and its comments
intend: all three of IRQ, DRQ, ACK read high.  Kept for comparison with the
actual translation `idle`. -/
def idleIntended (idr : Nat) : Bool :=
  (idr &&& (IRQ_MASK ||| DRQ_MASK ||| ACK_MASK))
    == (IRQ_MASK ||| DRQ_MASK ||| ACK_MASK)

/-- Strobe-pattern test of `Acsi::waitCommand`'s inner loop: the snapshot has
both A1 (PB6) and CS (PB7) low, i.e. `(port & (A1_MASK | CS_MASK)) == 0`. -/
def strobeOk (pb : Nat) : Bool :=
  (pb % 65536) &&& (A1_MASK ||| CS_MASK) == 0

/-- Device-id test of `Acsi::waitCommand`'s outer loop:
`(1 << (port >> (8+5))) & mask` is nonzero. -/
def idMatch (pb mask : Nat) : Bool :=
  (1 <<< ((pb % 65536) >>> 13)) &&& mask != 0

/-- The command byte extracted from a port snapshot:
`(uint8_t)(port >> 8)`. -/
def cmdByte (pb : Nat) : Nat :=
  ((pb % 65536) >>> 8) % 256

/-- `Acsi::waitCommand`, modelled over the list of successive port snapshots
the busy-poll would read.  Each element pairs the `GPIOB` read of the inner
`while` with the `GPIOA` read that `idle()` would perform for that outer
iteration.  A snapshot with A1/CS still high is skipped (inner `while`
spins); on a strobe, the device id and `idle()` are checked, returning
`(uint8_t)(port >> 8)` from the same snapshot on a match, else the outer
`do/while` loops.  An exhausted list models a poll that never returned. -/
def waitCommand (mask : Nat) : List (Nat × Nat) → Option Nat
  | [] => none
  | s :: rest =>
    if strobeOk s.1 then
      if idMatch s.1 mask && idle s.2 then some (cmdByte s.1)
      else waitCommand mask rest
    else waitCommand mask rest

/-- The remainder loop of `Acsi::readDma`/`Acsi::sendDma`
(`while(i < count) { BYTE(0); ++i; ++bytes; }`): the list of byte offsets
processed, in order, starting at offset `i`.  `count` is the C `int`
argument, so it is an `Int`.  This loop is also exactly the simple per-byte
loop the spec describes for the unbatched transfer. -/
def dmaRemLoop (count : Int) (i : Nat) : List Nat :=
  if (i : Int) < count then i :: dmaRemLoop count (i + 1) else []
termination_by (count - i).toNat
decreasing_by simp_wf; omega

/-- The batch loop of `Acsi::readDma`/`Acsi::sendDma`
(`for(i = 0; i <= count - 16; i += 16)` with sixteen unrolled
`ACSI_READ_BYTE(0) .. ACSI_READ_BYTE(15)` and `bytes += 16`), followed by the
remainder loop: the list of byte offsets processed, in order. -/
def dmaBatchLoop (count : Int) (i : Nat) : List Nat :=
  if (i : Int) ≤ count - 16 then
    i :: (i+1) :: (i+2) :: (i+3) :: (i+4) :: (i+5) :: (i+6) :: (i+7) ::
    (i+8) :: (i+9) :: (i+10) :: (i+11) :: (i+12) :: (i+13) :: (i+14) ::
    (i+15) :: dmaBatchLoop count (i + 16)
  else dmaRemLoop count i
termination_by (count - i).toNat
decreasing_by simp_wf; omega

/-- A hardware event performed by one of the engine's operations, in program
order: systick suspend/resume, a write to a `GPIO` configuration or output
register, a write to the timer counter, the busy-wait on the counter, a
capture of the timer's `CCR1` holding register (carrying the 16-bit value
read), a direct sample of the `GPIOB` input register, and the two
chip-select waits. -/
inductive Ev where
  | systickOff : Ev
  | systickOn : Ev
  | setCrhA : Nat → Ev
  | setCrhB : Nat → Ev
  | setOdrB : Nat → Ev
  | setCnt : Nat → Ev
  | waitTick : Ev
  | captureReg : Nat → Ev
  | samplePortB : Nat → Ev
  | waitCsLow : Ev
  | waitCsHigh : Ev
  deriving DecidableEq, Repr

/-- `Acsi::releaseRq`: `GPIOA->regs->CRH = 0x44444BB4` (ACK, IRQ, DRQ to
input). -/
def releaseRqTr : List Ev := [Ev.setCrhA 0x44444BB4]

/-- `Acsi::releaseDataBus`: `GPIOB->regs->CRH = 0x44444444` (PB8-15 to
input). -/
def releaseDataBusTr : List Ev := [Ev.setCrhB 0x44444444]

/-- `Acsi::releaseBus`: `releaseDataBus(); releaseRq();`. -/
def releaseBusTr : List Ev := releaseDataBusTr ++ releaseRqTr

/-- `Acsi::acquireDrq`: set the timer counter to 2, then switch DRQ through
input pull-up (`0x44448BB4`) to the timer PWM output (`0x4444BBB4`). -/
def acquireDrqTr : List Ev :=
  [Ev.setCnt 2, Ev.setCrhA 0x44448BB4, Ev.setCrhA 0x4444BBB4]

/-- `Acsi::acquireDataBus`: `GPIOB->regs->CRH = 0x33333333` (PB8-15 to
push-pull output). -/
def acquireDataBusTr : List Ev := [Ev.setCrhB 0x33333333]

/-- `Acsi::pullIrq`: `GPIOA->regs->CRH = 0x44444BB3`. -/
def pullIrqTr : List Ev := [Ev.setCrhA 0x44444BB3]

/-- `Acsi::writeData`: `GPIOB->regs->ODR = ((int)byte) << 8`. -/
def writeDataTr (b : Nat) : List Ev := [Ev.setOdrB ((b % 256) <<< 8)]

/-- `Acsi::sendIrq(uint8_t)`: suspend systick, acquire the data bus, drive
the byte, pull IRQ, wait for the CS strobe (low then high), release the bus,
resume systick. -/
def sendIrqTr (b : Nat) : List Ev :=
  [Ev.systickOff] ++ acquireDataBusTr ++ writeDataTr b ++ pullIrqTr ++
    [Ev.waitCsLow, Ev.waitCsHigh] ++ releaseBusTr ++ [Ev.systickOn]

/-- `Acsi::sendIrq(const uint8_t*, int)`: a plain per-byte iteration of the
single-byte form; the wrapper itself touches nothing else. -/
def sendIrqMultiTr (bs : List Nat) : List Ev := (bs.map sendIrqTr).flatten

/-- `Acsi::readIrq()`: suspend systick, pull IRQ, poll `GPIOB` until CS is
low (the returned byte comes from that final sample `p`), release the
request lines, resume systick. -/
def readIrqTr (p : Nat) : List Ev :=
  [Ev.systickOff] ++ pullIrqTr ++ [Ev.samplePortB (p % 65536)] ++
    releaseRqTr ++ [Ev.systickOn]

/-- The byte `Acsi::readIrq()` returns from its final port sample:
`(uint8_t)(b >> 8)`. -/
def readIrqByte (p : Nat) : Nat := ((p % 65536) >>> 8) % 256

/-- `Acsi::readIrq(uint8_t*, int)`: suspend systick, run the single-byte
form per byte, wait for CS to go high (disconnect guard), resume systick. -/
def readIrqMultiTr (ps : List Nat) : List Ev :=
  [Ev.systickOff] ++ (ps.map readIrqTr).flatten ++ [Ev.waitCsHigh, Ev.systickOn]

/-- One `ACSI_READ_BYTE` of `Acsi::readDma`: reset the timer counter,
busy-wait until it moves, read the high byte of `CCR1` (the 16-bit sample
for byte offset `i` is supplied by the environment `env`). -/
def readByteTr (env : Nat → Nat) (i : Nat) : List Ev :=
  [Ev.setCnt 0, Ev.waitTick, Ev.captureReg (env i % 65536)]

/-- `Acsi::readDma`: suspend systick, acquire DRQ, run the batched byte
loop, release the bus, resume systick. -/
def readDmaTr (env : Nat → Nat) (count : Int) : List Ev :=
  [Ev.systickOff] ++ acquireDrqTr ++
    ((dmaBatchLoop count 0).map (readByteTr env)).flatten ++
    releaseBusTr ++ [Ev.systickOn]

/-- One `ACSI_SEND_BYTE` of `Acsi::sendDma`: drive `bytes[i]` on the data
bus, reset the timer counter, busy-wait until it moves. -/
def sendByteTr (bs : Nat → Nat) (i : Nat) : List Ev :=
  writeDataTr (bs i) ++ [Ev.setCnt 0, Ev.waitTick]

/-- `Acsi::sendDma`: suspend systick, acquire the data bus and DRQ, run the
batched byte loop, release the bus, resume systick. -/
def sendDmaTr (bs : Nat → Nat) (count : Int) : List Ev :=
  [Ev.systickOff] ++ acquireDataBusTr ++ acquireDrqTr ++
    ((dmaBatchLoop count 0).map (sendByteTr bs)).flatten ++
    releaseBusTr ++ [Ev.systickOn]

/-- The spec's unbatched form of `readDma`: the identical per-byte
reset/wait/capture sequence, driven by the simple per-byte loop instead of
the batch-of-16 loop. -/
def readDmaSimpleTr (env : Nat → Nat) (count : Int) : List Ev :=
  [Ev.systickOff] ++ acquireDrqTr ++
    ((dmaRemLoop count 0).map (readByteTr env)).flatten ++
    releaseBusTr ++ [Ev.systickOn]

/-- The spec's unbatched form of `sendDma`. -/
def sendDmaSimpleTr (bs : Nat → Nat) (count : Int) : List Ev :=
  [Ev.systickOff] ++ acquireDataBusTr ++ acquireDrqTr ++
    ((dmaRemLoop count 0).map (sendByteTr bs)).flatten ++
    releaseBusTr ++ [Ev.systickOn]

/-- The bytes a trace stores into the caller's buffer: the high byte of each
captured `CCR1` sample, `(uint8_t)(CCR1 >> 8)`, in order. -/
def capturedBytes (tr : List Ev) : List Nat :=
  tr.filterMap fun e =>
    match e with
    | Ev.captureReg v => some ((v >>> 8) % 256)
    | _ => none

/-- The values a trace drives onto the `GPIOB` output register, in order. -/
def writesOf (tr : List Ev) : List Nat :=
  tr.filterMap fun e =>
    match e with
    | Ev.setOdrB v => some v
    | _ => none

/-- The engine-visible hardware registers mutated by the traced events:
the two `CRH` line-direction registers, the `GPIOB` output register and the
timer counter. -/
structure Regs where
  crhA : Nat
  crhB : Nat
  odrB : Nat
  cnt : Nat
  deriving DecidableEq, Repr

/-- Effect of a single event on the registers; waits, captures and samples
leave them unchanged. -/
def applyEv (s : Regs) : Ev → Regs
  | Ev.setCrhA v => { s with crhA := v }
  | Ev.setCrhB v => { s with crhB := v }
  | Ev.setOdrB v => { s with odrB := v }
  | Ev.setCnt v => { s with cnt := v }
  | _ => s

/-- Run a trace over the registers. -/
def runTr (s : Regs) (tr : List Ev) : Regs := tr.foldl applyEv s

/-- The safe, non-driving line configuration left by `Acsi::releaseBus`:
data bus (PB8-15) and ACK/IRQ/DRQ all inputs. -/
def safeRegs (s : Regs) : Prop :=
  s.crhA = 0x44444BB4 ∧ s.crhB = 0x44444444

/-- Whether an event is a systick suspend/resume. -/
def isSystickEv : Ev → Bool
  | Ev.systickOff => true
  | Ev.systickOn => true
  | _ => false

/-- Whether an event exchanges a data byte with the bus: driving the data
output register, capturing the `CCR1` holding register, or sampling the data
port. -/
def isByteEv : Ev → Bool
  | Ev.setOdrB _ => true
  | Ev.captureReg _ => true
  | Ev.samplePortB _ => true
  | _ => false

/-- Systick enabled-state after an event (`true` = enabled). -/
def updateSystick (en : Bool) : Ev → Bool
  | Ev.systickOff => false
  | Ev.systickOn => true
  | _ => en

/-- Scanning a trace from systick state `en`: `true` iff some byte-exchange
event happens while systick is enabled. -/
def byteWhileEnabled : Bool → List Ev → Bool
  | _, [] => false
  | en, e :: r => (isByteEv e && en) || byteWhileEnabled (updateSystick en e) r

/-- Scanning a trace: `true` iff a systick resume happens strictly between
two byte-exchange events (i.e. some byte event is followed by a resume that
is itself followed by another byte event). -/
def resumeBetweenBytes : Bool → Bool → List Ev → Bool
  | _, _, [] => false
  | seenByte, seenResume, e :: r =>
    if isByteEv e then
      seenResume || resumeBetweenBytes true seenResume r
    else if e = Ev.systickOn then
      resumeBetweenBytes seenByte (seenResume || seenByte) r
    else
      resumeBetweenBytes seenByte seenResume r

/-- A trace suspends systick exactly once, as its very first action, and
resumes it exactly once, as its very last action; no systick event occurs
anywhere in between. -/
def systickScopedOnce (tr : List Ev) : Prop :=
  ∃ mid, tr = Ev.systickOff :: (mid ++ [Ev.systickOn]) ∧
    mid.filter isSystickEv = []

/-- Modelled from the spec: the strict-validation (`ACSI_CAREFUL_DMA`)
variant of the `readDma` byte loop.  The check is referenced by the source's
design comment (an incorrect counter value after a byte's busy-wait reveals
multiple ACK pulses) but its conditionally compiled code is not present in
the provided source.  Per §4.2/§4.6/§8 of the spec: after each byte's
busy-wait the observed timer counter (supplied by `cnt`, expected value 1 —
exactly one acknowledge edge) is checked; on any other value the transfer
aborts with an integrity fault instead of completing the remaining bytes. -/
def readDmaCareful (cnt env : Nat → Nat) : Nat → Nat → Except Unit (List Nat)
  | _, 0 => Except.ok []
  | i, n + 1 =>
    if cnt i = 1 then
      match readDmaCareful cnt env (i + 1) n with
      | Except.ok rest => Except.ok ((((env i % 65536) >>> 8) % 256) :: rest)
      | Except.error e => Except.error e
    else Except.error ()

/-- Modelled from the spec: the strict-validation (`ACSI_CAREFUL_DMA`)
variant of the `sendDma` byte loop; same overrun check as `readDmaCareful`,
the result being the list of values driven onto the data output register. -/
def sendDmaCareful (cnt bs : Nat → Nat) : Nat → Nat → Except Unit (List Nat)
  | _, 0 => Except.ok []
  | i, n + 1 =>
    if cnt i = 1 then
      match sendDmaCareful cnt bs (i + 1) n with
      | Except.ok rest => Except.ok (((bs i % 256) <<< 8) :: rest)
      | Except.error e => Except.error e
    else Except.error ()

/-- Loopback harness, write side: the values `writeBlock` (`sendDma`) drives
onto the data output register for buffer `bs`, in order. -/
def writeBlockDriven (bs : List Nat) : List Nat :=
  writesOf (sendDmaTr (fun j => bs.getD j 0) (bs.length : Int))

/-- Loopback harness, read side: `readBlock` (`readDma`) run with each byte
slot's captured port sample wired to the value the write side drove for the
same byte index. -/
def loopbackRead (bs : List Nat) : List Nat :=
  capturedBytes (readDmaTr (fun i => (writeBlockDriven bs).getD i 0)
    (bs.length : Int))

theorem dmaRemLoop_cons (count : Int) (i : Nat) (h : (i : Int) < count) :
    dmaRemLoop count i = i :: dmaRemLoop count (i + 1) := by
  rw [dmaRemLoop]; simp [h]

theorem dmaRemLoop_stop (count : Int) (i : Nat) (h : ¬ (i : Int) < count) :
    dmaRemLoop count i = [] := by
  rw [dmaRemLoop]; simp [h]

/-- Unrolling `n` iterations of the per-byte loop at once. -/
theorem dmaRemLoop_chunk (count : Int) (n : Nat) :
    ∀ i : Nat, ((i + n : Nat) : Int) ≤ count →
      dmaRemLoop count i = List.range' i n ++ dmaRemLoop count (i + n) := by
  induction n with
  | zero => intro i _; simp [List.range']
  | succ n ih =>
    intro i h
    rw [dmaRemLoop_cons count i (by omega), ih (i + 1) (by omega),
      List.range'_succ]
    have harg : i + 1 + n = i + (n + 1) := by omega
    rw [harg]
    simp

/-- The batched loop processes exactly the offsets of the simple per-byte
loop, in the same order. -/
theorem dmaBatchLoop_eq_remLoop (count : Int) (i : Nat) :
    dmaBatchLoop count i = dmaRemLoop count i := by
  rw [dmaBatchLoop]
  split
  · next h =>
    rw [dmaBatchLoop_eq_remLoop count (i + 16),
      dmaRemLoop_chunk count 16 i (by omega)]
    simp [List.range', Nat.add_assoc]
  · rfl
termination_by (count - i).toNat
decreasing_by simp_wf; omega

/-- For a nonnegative count `n`, the offsets processed are `0, 1, …, n-1`. -/
theorem dmaBatchLoop_eq_range (n : Nat) :
    dmaBatchLoop (n : Int) 0 = List.range n := by
  rw [dmaBatchLoop_eq_remLoop, dmaRemLoop_chunk (n : Int) n 0 (by omega),
    dmaRemLoop_stop _ _ (by omega)]
  simp [List.range_eq_range']

/-- A nonpositive count processes no offsets at all. -/
theorem dmaBatchLoop_nonpos (count : Int) (h : count ≤ 0) :
    dmaBatchLoop count 0 = [] := by
  rw [dmaBatchLoop_eq_remLoop, dmaRemLoop_stop _ _ (by omega)]

theorem runTr_append (s : Regs) (l₁ l₂ : List Ev) :
    runTr s (l₁ ++ l₂) = runTr (runTr s l₁) l₂ :=
  List.foldl_append ..

/-- C1: the bus-idle query.  The claim states `idle()` is true iff IRQ, DRQ
and ACK are all high; the code, due to C precedence (`==` binds tighter than
`|`), ors two nonzero masks into the comparison result and therefore returns
`true` for every possible `GPIOA` input word — in particular for `IDR = 0`,
where all three lines are asserted and the claim requires `false`. -/
theorem idle_always_true : ∀ idr : Nat, Acsi.idle idr = true := by
  intro idr
  unfold Acsi.idle Acsi.IRQ_MASK Acsi.DRQ_MASK Acsi.ACK_MASK
  split <;> decide

/-- C2: `waitCommand` returns only on a snapshot in which the strobe pattern
is present and the decoded device id is a member of the mask, and the
returned byte is extracted from that same snapshot; if no snapshot of the
poll matches both conditions, the poll never returns. -/
theorem waitCommand_device_mask :
    (∀ (mask : Nat) (tr : List (Nat × Nat)) (b : Nat),
      Acsi.waitCommand mask tr = some b →
        ∃ s ∈ tr, Acsi.strobeOk s.1 = true ∧ Acsi.idMatch s.1 mask = true ∧
          b = Acsi.cmdByte s.1)
    ∧ (∀ (mask : Nat) (tr : List (Nat × Nat)),
      (∀ s ∈ tr, ¬(Acsi.strobeOk s.1 = true ∧ Acsi.idMatch s.1 mask = true)) →
        Acsi.waitCommand mask tr = none) := by
  constructor
  · intro mask tr
    induction tr with
    | nil => intro b h; simp [Acsi.waitCommand] at h
    | cons s rest ih =>
      intro b h
      unfold Acsi.waitCommand at h
      by_cases hs : Acsi.strobeOk s.1
      · rw [if_pos hs] at h
        by_cases hm : Acsi.idMatch s.1 mask && Acsi.idle s.2
        · rw [if_pos hm] at h
          refine ⟨s, List.mem_cons_self s rest, hs, ?_, ?_⟩
          · have hsplit : Acsi.idMatch s.1 mask = true ∧ Acsi.idle s.2 = true := by
              simpa using hm
            exact hsplit.1
          · exact (Option.some_inj.mp h).symm
        · rw [if_neg hm] at h
          obtain ⟨t, ht, h1, h2, h3⟩ := ih b h
          exact ⟨t, List.mem_cons_of_mem s ht, h1, h2, h3⟩
      · rw [if_neg hs] at h
        obtain ⟨t, ht, h1, h2, h3⟩ := ih b h
        exact ⟨t, List.mem_cons_of_mem s ht, h1, h2, h3⟩
  · intro mask tr
    induction tr with
    | nil => intro _; rfl
    | cons s rest ih =>
      intro h
      unfold Acsi.waitCommand
      by_cases hs : Acsi.strobeOk s.1
      · have hm : Acsi.idMatch s.1 mask = false := by
          by_contra hc
          exact h s (List.mem_cons_self s rest)
            ⟨hs, by revert hc; cases Acsi.idMatch s.1 mask <;> simp⟩
        rw [if_pos hs, hm]
        simp only [Bool.false_and, if_false]
        exact ih (fun t ht => h t (List.mem_cons_of_mem s ht))
      · rw [if_neg hs]
        exact ih (fun t ht => h t (List.mem_cons_of_mem s ht))

/-- Witness for C2: with mask `0x02` (device 1 enabled) and a snapshot whose
top three bits decode device 1, `waitCommand` returns command byte `0x2A`
taken from that snapshot. -/
theorem waitCommand_device_mask_witness :
    ∃ s ∈ [((0x2A00 : Nat), (0x1900 : Nat))],
      Acsi.strobeOk s.1 = true ∧ Acsi.idMatch s.1 2 = true ∧
        0x2A = Acsi.cmdByte s.1 :=
  waitCommand_device_mask.1 2 [(0x2A00, 0x1900)] 0x2A (by decide)

theorem readDmaCareful_error_of_overrun (cnt env : Nat → Nat) :
    ∀ n s : Nat, (∃ i, i < n ∧ cnt (s + i) ≠ 1) →
      Acsi.readDmaCareful cnt env s n = Except.error () := by
  intro n
  induction n with
  | zero =>
    intro s h
    obtain ⟨i, hi, _⟩ := h
    omega
  | succ n ih =>
    intro s h
    obtain ⟨i, hi, hne⟩ := h
    unfold Acsi.readDmaCareful
    by_cases hc : cnt s = 1
    · rw [if_pos hc]
      have hrest : ∃ j, j < n ∧ cnt (s + 1 + j) ≠ 1 := by
        cases i with
        | zero => exact absurd hc hne
        | succ i =>
          refine ⟨i, by omega, ?_⟩
          have harg : s + 1 + i = s + (i + 1) := by omega
          rw [harg]; exact hne
      rw [ih (s + 1) hrest]
    · rw [if_neg hc]

theorem sendDmaCareful_error_of_overrun (cnt bs : Nat → Nat) :
    ∀ n s : Nat, (∃ i, i < n ∧ cnt (s + i) ≠ 1) →
      Acsi.sendDmaCareful cnt bs s n = Except.error () := by
  intro n
  induction n with
  | zero =>
    intro s h
    obtain ⟨i, hi, _⟩ := h
    omega
  | succ n ih =>
    intro s h
    obtain ⟨i, hi, hne⟩ := h
    unfold Acsi.sendDmaCareful
    by_cases hc : cnt s = 1
    · rw [if_pos hc]
      have hrest : ∃ j, j < n ∧ cnt (s + 1 + j) ≠ 1 := by
        cases i with
        | zero => exact absurd hc hne
        | succ i =>
          refine ⟨i, by omega, ?_⟩
          have harg : s + 1 + i = s + (i + 1) := by omega
          rw [harg]; exact hne
      rw [ih (s + 1) hrest]
    · rw [if_neg hc]

/-- C3: with strict validation enabled, a counter overrun (an observed timer
counter other than 1 after some byte's busy-wait, the signature of a double
acknowledge pulse) anywhere inside the block makes both the read and the
write block transfer abort with an integrity fault instead of completing the
remaining bytes or returning data. -/
theorem carefulDma_aborts_on_overrun :
    ∀ (cnt env bs : Nat → Nat) (count : Nat), (∃ i, i < count ∧ cnt i ≠ 1) →
      Acsi.readDmaCareful cnt env 0 count = Except.error () ∧
      Acsi.sendDmaCareful cnt bs 0 count = Except.error () := by
  intro cnt env bs count h
  obtain ⟨i, hi, hne⟩ := h
  have h0 : ∃ j, j < count ∧ cnt (0 + j) ≠ 1 :=
    ⟨i, hi, by rw [Nat.zero_add]; exact hne⟩
  exact ⟨readDmaCareful_error_of_overrun cnt env count 0 h0,
    sendDmaCareful_error_of_overrun cnt bs count 0 h0⟩

/-- Witness for C3: a double acknowledge at byte 1 of a 4-byte block aborts
both directions with the integrity fault. -/
theorem carefulDma_aborts_on_overrun_witness :
    Acsi.readDmaCareful (fun i => if i = 1 then 2 else 1) (fun _ => 0) 0 4
        = Except.error () ∧
      Acsi.sendDmaCareful (fun i => if i = 1 then 2 else 1) (fun _ => 0) 0 4
        = Except.error () :=
  carefulDma_aborts_on_overrun (fun i => if i = 1 then 2 else 1)
    (fun _ => 0) (fun _ => 0) 4 ⟨1, by decide, by decide⟩

theorem capturedBytes_append (l₁ l₂ : List Ev) :
    capturedBytes (l₁ ++ l₂) = capturedBytes l₁ ++ capturedBytes l₂ :=
  List.filterMap_append ..

theorem writesOf_append (l₁ l₂ : List Ev) :
    writesOf (l₁ ++ l₂) = writesOf l₁ ++ writesOf l₂ :=
  List.filterMap_append ..

/-- The byte loop of a DMA read stores, per processed offset, the high byte
of the captured sample. -/
theorem capturedBytes_readByteLoop (env : Nat → Nat) :
    ∀ offs : List Nat,
      capturedBytes ((offs.map (readByteTr env)).flatten)
        = offs.map (fun i => ((env i % 65536) >>> 8) % 256) := by
  intro offs
  induction offs with
  | nil => rfl
  | cons o t ih =>
    simp only [List.map_cons, List.flatten_cons, capturedBytes_append, ih]
    rfl

/-- The byte loop of a DMA write drives, per processed offset, the shifted
buffer byte. -/
theorem writesOf_sendByteLoop (bs : Nat → Nat) :
    ∀ offs : List Nat,
      writesOf ((offs.map (sendByteTr bs)).flatten)
        = offs.map (fun i => (bs i % 256) <<< 8) := by
  intro offs
  induction offs with
  | nil => rfl
  | cons o t ih =>
    simp only [List.map_cons, List.flatten_cons, writesOf_append, ih]
    rfl

theorem capturedBytes_readDmaTr (env : Nat → Nat) (count : Int) :
    capturedBytes (Acsi.readDmaTr env count)
      = (dmaBatchLoop count 0).map (fun i => ((env i % 65536) >>> 8) % 256) := by
  show capturedBytes ((((dmaBatchLoop count 0).map (readByteTr env)).flatten ++
    releaseBusTr) ++ [Ev.systickOn]) = _
  rw [capturedBytes_append, capturedBytes_append, capturedBytes_readByteLoop]
  simp [capturedBytes, releaseBusTr, releaseDataBusTr, releaseRqTr]

theorem writesOf_sendDmaTr (bs : Nat → Nat) (count : Int) :
    writesOf (Acsi.sendDmaTr bs count)
      = (dmaBatchLoop count 0).map (fun i => (bs i % 256) <<< 8) := by
  show writesOf ((((dmaBatchLoop count 0).map (sendByteTr bs)).flatten ++
    releaseBusTr) ++ [Ev.systickOn]) = _
  rw [writesOf_append, writesOf_append, writesOf_sendByteLoop]
  simp [writesOf, releaseBusTr, releaseDataBusTr, releaseRqTr]

/-- C5: the batch-of-16 unrolled loops of `readDma` and `sendDma` are
behaviorally equivalent to the simple per-byte loop: the full event traces —
and hence the per-byte action sequences, the captured buffer contents and
the driven values — coincide. -/
theorem dma_batch_refines_simple :
    ∀ (env bs : Nat → Nat) (count : Int),
      Acsi.readDmaTr env count = Acsi.readDmaSimpleTr env count ∧
      Acsi.sendDmaTr bs count = Acsi.sendDmaSimpleTr bs count ∧
      capturedBytes (Acsi.readDmaTr env count)
          = capturedBytes (Acsi.readDmaSimpleTr env count) ∧
      writesOf (Acsi.sendDmaTr bs count)
          = writesOf (Acsi.sendDmaSimpleTr bs count) := by
  intro env bs count
  have hr : Acsi.readDmaTr env count = Acsi.readDmaSimpleTr env count := by
    unfold Acsi.readDmaTr Acsi.readDmaSimpleTr
    rw [dmaBatchLoop_eq_remLoop]
  have hs : Acsi.sendDmaTr bs count = Acsi.sendDmaSimpleTr bs count := by
    unfold Acsi.sendDmaTr Acsi.sendDmaSimpleTr
    rw [dmaBatchLoop_eq_remLoop]
  exact ⟨hr, hs, by rw [hr], by rw [hs]⟩

theorem getD_map_range (g : Nat → Nat) (n i : Nat) (h : i < n) :
    ((List.range n).map g).getD i 0 = g i := by
  rw [List.getD_eq_getElem?_getD, List.getElem?_map, List.getElem?_range h]
  rfl

theorem map_getD_range_eq :
    ∀ bs : List Nat, (List.range bs.length).map (fun i => bs.getD i 0) = bs := by
  intro bs
  induction bs with
  | nil => rfl
  | cons a t ih =>
    have hr : List.range (a :: t).length = 0 :: (List.range t.length).map Nat.succ := by
      simpa using List.range_succ_eq_map t.length
    rw [hr]
    simp only [List.map_cons, List.map_map, List.getD_cons_zero]
    have hcomp : (List.range t.length).map ((fun i => (a :: t).getD i 0) ∘ Nat.succ)
        = (List.range t.length).map (fun i => t.getD i 0) :=
      List.map_congr_left (fun i _ => by simp [Function.comp, List.getD_cons_succ])
    rw [hcomp, ih]

/-- Reading back a value that `writeData` drove recovers the byte. -/
theorem captureOfDriven (b : Nat) :
    ((((b % 256) <<< 8) % 65536) >>> 8) % 256 = b % 256 := by
  rw [Nat.shiftLeft_eq, Nat.shiftRight_eq_div_pow]
  norm_num
  omega

/-- C6: over the loopback harness (each byte slot's captured sample wired to
the value the write side drove for the same index), writing a buffer with
`writeBlock`/`sendDma` and reading it back with `readBlock`/`readDma`
returns exactly the original byte sequence, for the claimed block lengths
around the batching size. -/
theorem writeBlock_readBlock_roundtrip :
    ∀ bs : List Nat, (∀ b ∈ bs, b < 256) →
      bs.length ∈ [0, 1, 15, 16, 17, 255, 4096] →
      Acsi.loopbackRead bs = bs := by
  intro bs hlt _
  unfold Acsi.loopbackRead Acsi.writeBlockDriven
  rw [capturedBytes_readDmaTr, writesOf_sendDmaTr, dmaBatchLoop_eq_range]
  have hstep : ∀ i ∈ List.range bs.length,
      ((((List.range bs.length).map
          (fun j => (bs.getD j 0 % 256) <<< 8)).getD i 0 % 65536)
            >>> 8) % 256
        = bs.getD i 0 := by
    intro i hi
    rw [List.mem_range] at hi
    rw [getD_map_range _ _ _ hi, captureOfDriven]
    have hmem : bs.getD i 0 ∈ bs := by
      rw [List.getD_eq_getElem bs 0 hi]
      exact List.getElem_mem hi
    exact Nat.mod_eq_of_lt (hlt _ hmem)
  rw [List.map_congr_left hstep]
  exact map_getD_range_eq bs

/-- Witness for C6: a 17-byte block (one batch of 16 plus a remainder byte)
survives the write/read round trip unchanged. -/
theorem writeBlock_readBlock_roundtrip_witness :
    (∀ b ∈ [7, 0, 255, 1, 2, 3, 4, 5, 6, 8, 9, 10, 11, 12, 13, 14, 200],
      b < 256) ∧
    ([7, 0, 255, 1, 2, 3, 4, 5, 6, 8, 9, 10, 11, 12, 13, 14, 200] :
      List Nat).length ∈ [0, 1, 15, 16, 17, 255, 4096] ∧
    Acsi.loopbackRead [7, 0, 255, 1, 2, 3, 4, 5, 6, 8, 9, 10, 11, 12, 13, 14, 200]
      = [7, 0, 255, 1, 2, 3, 4, 5, 6, 8, 9, 10, 11, 12, 13, 14, 200] :=
  ⟨by decide, by decide,
    writeBlock_readBlock_roundtrip
      [7, 0, 255, 1, 2, 3, 4, 5, 6, 8, 9, 10, 11, 12, 13, 14, 200]
      (by decide) (by decide)⟩

/-- The byte loop of a DMA read only touches the timer counter: line
directions and the output register are untouched. -/
theorem runTr_readByteLoop (env : Nat → Nat) :
    ∀ (offs : List Nat) (s : Regs),
      runTr s ((offs.map (readByteTr env)).flatten)
        = if offs.isEmpty then s else { s with cnt := 0 } := by
  intro offs
  induction offs with
  | nil => intro s; rfl
  | cons o t ih =>
    intro s
    simp only [List.map_cons, List.flatten_cons]
    rw [runTr_append]
    have h1 : runTr s (readByteTr env o) = { s with cnt := 0 } := rfl
    rw [h1, ih]
    cases t <;> rfl

/-- The byte loop of a DMA write only touches the output register and the
timer counter: line directions are untouched. -/
theorem runTr_sendByteLoop_crh (bs : Nat → Nat) :
    ∀ (offs : List Nat) (s : Regs),
      (runTr s ((offs.map (sendByteTr bs)).flatten)).crhA = s.crhA ∧
      (runTr s ((offs.map (sendByteTr bs)).flatten)).crhB = s.crhB := by
  intro offs
  induction offs with
  | nil => intro s; exact ⟨rfl, rfl⟩
  | cons o t ih =>
    intro s
    simp only [List.map_cons, List.flatten_cons]
    rw [runTr_append]
    have h1 : runTr s (sendByteTr bs o)
        = { s with odrB := (bs o % 256) <<< 8, cnt := 0 } := rfl
    rw [h1]
    exact ih _

/-- C7: every transfer operation leaves the line-direction registers in the
safe, non-driving input configuration on return: `sendIrq`, `readDma` and
`sendDma` end in the fully released state from any starting state, and
`readIrq` releases the request/interrupt lines it pulled while leaving the
data-bus direction untouched (so from a safe entry state it also returns a
safe state). -/
theorem bus_released_on_return :
    ∀ (s : Regs) (b p : Nat) (env bsf : Nat → Nat) (count : Int),
      safeRegs (runTr s (sendIrqTr b)) ∧
      safeRegs (runTr s (readDmaTr env count)) ∧
      safeRegs (runTr s (sendDmaTr bsf count)) ∧
      (runTr s (readIrqTr p)).crhA = 0x44444BB4 ∧
      (runTr s (readIrqTr p)).crhB = s.crhB ∧
      (safeRegs s → safeRegs (runTr s (readIrqTr p))) := by
  intro s b p env bsf count
  refine ⟨⟨rfl, rfl⟩, ?_, ?_, rfl, rfl, ?_⟩
  · have ht : Acsi.readDmaTr env count
        = ([Ev.systickOff] ++ acquireDrqTr ++
            ((dmaBatchLoop count 0).map (readByteTr env)).flatten)
          ++ (releaseBusTr ++ [Ev.systickOn]) := by
      simp [Acsi.readDmaTr, List.append_assoc]
    rw [ht, runTr_append]
    exact ⟨rfl, rfl⟩
  · have ht : Acsi.sendDmaTr bsf count
        = ([Ev.systickOff] ++ acquireDataBusTr ++ acquireDrqTr ++
            ((dmaBatchLoop count 0).map (sendByteTr bsf)).flatten)
          ++ (releaseBusTr ++ [Ev.systickOn]) := by
      simp [Acsi.sendDmaTr, List.append_assoc]
    rw [ht, runTr_append]
    exact ⟨rfl, rfl⟩
  · intro hsafe
    exact ⟨rfl, hsafe.2⟩

/-- Witness for C7: from the safe configuration, `readIrq` returns with the
bus still in the safe configuration. -/
theorem bus_released_on_return_witness :
    safeRegs (⟨0x44444BB4, 0x44444444, 0, 0⟩ : Regs) ∧
    safeRegs (runTr ⟨0x44444BB4, 0x44444444, 0, 0⟩ (readIrqTr 0)) :=
  ⟨⟨rfl, rfl⟩,
    (bus_released_on_return ⟨0x44444BB4, 0x44444444, 0, 0⟩ 0 0 (fun _ => 0)
      (fun _ => 0) 0).2.2.2.2.2 ⟨rfl, rfl⟩⟩

/-- C8: the bus-release sequence (`releaseDataBus` then `releaseRq`) is
idempotent on the register state: running it twice from any starting state
leaves exactly the state of running it once. -/
theorem releaseBus_idempotent :
    ∀ s : Regs, runTr (runTr s releaseBusTr) releaseBusTr = runTr s releaseBusTr :=
  fun _ => rfl

/-- C10: for a count ≤ 0 (including exactly 0), `readDma` captures no bytes
and `sendDma` drives no bytes, no per-byte handshake (counter reset /
busy-wait) occurs, and each trace consists of exactly the acquire-lines,
release-bus and systick suspend/resume effects. -/
theorem dma_nonpositive_count_no_bytes :
    ∀ (env bsf : Nat → Nat) (count : Int), count ≤ 0 →
      capturedBytes (Acsi.readDmaTr env count) = [] ∧
      writesOf (Acsi.sendDmaTr bsf count) = [] ∧
      Acsi.readDmaTr env count
        = [Ev.systickOff, Ev.setCnt 2, Ev.setCrhA 0x44448BB4,
            Ev.setCrhA 0x4444BBB4, Ev.setCrhB 0x44444444, Ev.setCrhA 0x44444BB4,
            Ev.systickOn] ∧
      Acsi.sendDmaTr bsf count
        = [Ev.systickOff, Ev.setCrhB 0x33333333, Ev.setCnt 2,
            Ev.setCrhA 0x44448BB4, Ev.setCrhA 0x4444BBB4, Ev.setCrhB 0x44444444,
            Ev.setCrhA 0x44444BB4, Ev.systickOn] := by
  intro env bsf count h
  have h0 := dmaBatchLoop_nonpos count h
  refine ⟨?_, ?_, ?_, ?_⟩
  · rw [capturedBytes_readDmaTr, h0]; rfl
  · rw [writesOf_sendDmaTr, h0]; rfl
  · simp [Acsi.readDmaTr, h0, acquireDrqTr, releaseBusTr, releaseDataBusTr,
      releaseRqTr]
  · simp [Acsi.sendDmaTr, h0, acquireDataBusTr, acquireDrqTr, releaseBusTr,
      releaseDataBusTr, releaseRqTr]

/-- Witness for C10: a negative count and a zero count produce no captured
bytes and no driven bytes. -/
theorem dma_nonpositive_count_no_bytes_witness :
    ((-3 : Int) ≤ 0 ∧ capturedBytes (Acsi.readDmaTr (fun _ => 0) (-3)) = []) ∧
    ((0 : Int) ≤ 0 ∧ writesOf (Acsi.sendDmaTr (fun _ => 0) 0) = []) :=
  ⟨⟨by decide,
      (dma_nonpositive_count_no_bytes (fun _ => 0) (fun _ => 0) (-3)
        (by decide)).1⟩,
    ⟨by decide,
      (dma_nonpositive_count_no_bytes (fun _ => 0) (fun _ => 0) 0
        (by decide)).2.1⟩⟩

theorem filter_systick_readByteLoop (env : Nat → Nat) :
    ∀ offs : List Nat,
      ((offs.map (readByteTr env)).flatten).filter isSystickEv = [] := by
  intro offs
  induction offs with
  | nil => rfl
  | cons o t ih =>
    simp only [List.map_cons, List.flatten_cons, List.filter_append, ih]
    rfl

theorem filter_systick_sendByteLoop (bs : Nat → Nat) :
    ∀ offs : List Nat,
      ((offs.map (sendByteTr bs)).flatten).filter isSystickEv = [] := by
  intro offs
  induction offs with
  | nil => rfl
  | cons o t ih =>
    simp only [List.map_cons, List.flatten_cons, List.filter_append, ih]
    rfl

/-- A whole single-byte `sendIrq` exchange scanned from any systick state:
no byte event of it runs with systick enabled, and it hands the scan to the
rest of the trace with systick enabled. -/
theorem byteWhileEnabled_sendIrq_step (b : Nat) (en : Bool) (r : List Ev) :
    byteWhileEnabled en (sendIrqTr b ++ r) = byteWhileEnabled true r := by
  simp [sendIrqTr, acquireDataBusTr, writeDataTr, pullIrqTr, releaseBusTr,
    releaseDataBusTr, releaseRqTr, byteWhileEnabled, isByteEv, updateSystick]

/-- Same for a single-byte `readIrq` exchange. -/
theorem byteWhileEnabled_readIrq_step (p : Nat) (en : Bool) (r : List Ev) :
    byteWhileEnabled en (readIrqTr p ++ r) = byteWhileEnabled true r := by
  simp [readIrqTr, pullIrqTr, releaseRqTr, byteWhileEnabled, isByteEv,
    updateSystick]

theorem byteWhileEnabled_sendIrqMulti (bs : List Nat) :
    byteWhileEnabled true (sendIrqMultiTr bs) = false := by
  have key : ∀ (l : List Nat) (en : Bool),
      byteWhileEnabled en ((l.map sendIrqTr).flatten) = false := by
    intro l
    induction l with
    | nil => intro en; rfl
    | cons x t ih =>
      intro en
      simp only [List.map_cons, List.flatten_cons]
      rw [byteWhileEnabled_sendIrq_step]
      exact ih true
  exact key bs true

theorem byteWhileEnabled_readIrqMulti (ps : List Nat) :
    byteWhileEnabled true (readIrqMultiTr ps) = false := by
  have key : ∀ (l : List Nat) (en : Bool),
      byteWhileEnabled en
        ((l.map readIrqTr).flatten ++ [Ev.waitCsHigh, Ev.systickOn]) = false := by
    intro l
    induction l with
    | nil => intro en; rfl
    | cons x t ih =>
      intro en
      simp only [List.map_cons, List.flatten_cons, List.append_assoc]
      rw [byteWhileEnabled_readIrq_step]
      exact ih true
  exact key ps false

/-- C4 counterexample: in the multi-byte `sendIrq(const uint8_t*, int)` for
two bytes, a systick resume occurs strictly between the two bytes' data
events — the inner single-byte call re-enables systick on its exit, so the
claim's "re-enabled only after the whole exchange completes, never between
bytes" fails for the multi-byte interrupt-protocol forms. -/
theorem systick_reenabled_between_bytes :
    resumeBetweenBytes false false (sendIrqMultiTr [0, 0]) = true := by decide

/-- C4 amended: the single-byte interrupt-protocol operations and both block
transfer operations suspend systick exactly once on entry and resume it
exactly once as the very last action, with no systick event in between (so
for the block forms systick stays disabled across the entire block, never
re-enabled between bytes); the multi-byte interrupt-protocol wrappers
re-enable systick between consecutive bytes (see the counterexample), but
every individual byte exchange inside them still runs with systick
disabled. -/
theorem systick_scoped_amended :
    ∀ (b p : Nat) (env bsf : Nat → Nat) (count : Int) (bs ps : List Nat),
      systickScopedOnce (sendIrqTr b) ∧
      systickScopedOnce (readIrqTr p) ∧
      systickScopedOnce (readDmaTr env count) ∧
      systickScopedOnce (sendDmaTr bsf count) ∧
      byteWhileEnabled true (sendIrqMultiTr bs) = false ∧
      byteWhileEnabled true (readIrqMultiTr ps) = false := by
  intro b p env bsf count bs ps
  refine ⟨?_, ?_, ?_, ?_, byteWhileEnabled_sendIrqMulti bs,
    byteWhileEnabled_readIrqMulti ps⟩
  · exact ⟨[Ev.setCrhB 0x33333333, Ev.setOdrB ((b % 256) <<< 8),
      Ev.setCrhA 0x44444BB3, Ev.waitCsLow, Ev.waitCsHigh,
      Ev.setCrhB 0x44444444, Ev.setCrhA 0x44444BB4], rfl, rfl⟩
  · exact ⟨[Ev.setCrhA 0x44444BB3, Ev.samplePortB (p % 65536),
      Ev.setCrhA 0x44444BB4], rfl, rfl⟩
  · refine ⟨acquireDrqTr ++ ((dmaBatchLoop count 0).map (readByteTr env)).flatten
      ++ releaseBusTr, ?_, ?_⟩
    · simp [readDmaTr, acquireDrqTr, releaseBusTr, releaseDataBusTr,
        releaseRqTr, List.append_assoc]
    · simp only [List.filter_append, filter_systick_readByteLoop, acquireDrqTr,
        releaseBusTr, releaseDataBusTr, releaseRqTr]
      rfl
  · refine ⟨acquireDataBusTr ++ acquireDrqTr ++
      ((dmaBatchLoop count 0).map (sendByteTr bsf)).flatten ++ releaseBusTr,
      ?_, ?_⟩
    · simp [sendDmaTr, acquireDataBusTr, acquireDrqTr, releaseBusTr,
        releaseDataBusTr, releaseRqTr, List.append_assoc]
    · simp only [List.filter_append, filter_systick_sendByteLoop,
        acquireDataBusTr, acquireDrqTr, releaseBusTr, releaseDataBusTr,
        releaseRqTr]
      rfl

end Acsi
